import Mathlib

/-!
Shallow embedding of `script.py` (class `DateUtility`): a date-arithmetic
utility with a per-timezone holiday calendar.

Modelling conventions:
* A Python `datetime.datetime` (naive) is represented by its total number of
  microseconds since 1970-01-01T00:00:00 as an `Int` (Python datetimes have
  microsecond resolution); `datetime.timedelta(days = n)` is `n * usPerDay`.
* A Python `datetime.date` is represented by its day ordinal relative to
  1970-01-01 as an `Int`.
* Python dictionary keys in the holiday table are either `date` or `datetime`
  objects; CPython equality between a `date` and a `datetime` is always
  `False` (`datetime.__eq__` returns `False` for plain `date` operands), so
  the key type `PyKey` keeps the two apart and `pyKeyEq` models `==`.
* Python `dict` is modelled as an association list with unique keys kept in
  insertion order; updating an existing key keeps its position.
* Strings from the holiday file are modelled as `List Char`
  (`String.data`).
-/

/-- Microseconds per day; `datetime.timedelta(days = 1)` in microseconds. -/
def usPerDay : Int := 86400000000

/-- Python `weekday()` of the day containing microsecond-instant `t`:
Monday = 0 .. Sunday = 6.  1970-01-01 (instant 0) was a Thursday (3); the
containing day ordinal is the floor of `t / usPerDay`, matching how a
`datetime` truncates to its `date`. -/
def weekday (t : Int) : Int := Int.emod (Int.fdiv t usPerDay + 3) 7

/-- A Python dictionary key as used by the holiday table: either a
`datetime.date` (day ordinal) or a `datetime.datetime` (microseconds). -/
inductive PyKey where
  | date (ordinal : Int)
  | datetime (us : Int)
deriving DecidableEq, Repr

/-- CPython `==` between holiday-table keys: two `date`s compare by value,
two `datetime`s compare by value, and a `date` never equals a `datetime`
(CPython `datetime.__eq__` returns `False` on a plain `date` operand). -/
def pyKeyEq : PyKey → PyKey → Bool
  | PyKey.date a, PyKey.date b => a = b
  | PyKey.datetime a, PyKey.datetime b => a = b
  | _, _ => false

/-- The inner dict of `self.holidays[timezone]`: date key ↦ holiday label. -/
abbrev HolidaySub := List (PyKey × List Char)

/-- `self.holidays`: timezone string ↦ (date ↦ label), as built by
`load_holidays`. -/
abbrev Holidays := List (List Char × HolidaySub)

/-- Python `d[k]`-style lookup on an association list (unique keys). -/
def alistGet {β : Type} (l : List (List Char × β)) (k : List Char) : Option β :=
  match l with
  | [] => none
  | (k', v) :: rest => if k' = k then some v else alistGet rest k

/-- Python `k in d` on the inner holiday dict, using Python `==` on keys. -/
def containsKey (sub : HolidaySub) (k : PyKey) : Bool :=
  sub.any (fun p => pyKeyEq k p.1)

/-- Python `d[k] = v` on the inner dict: update in place if a key equal to
`k` is present, else append (CPython keeps the original key object and its
insertion position on update). -/
def setKey (sub : HolidaySub) (k : PyKey) (v : List Char) : HolidaySub :=
  match sub with
  | [] => [(k, v)]
  | (k', v') :: rest =>
      if pyKeyEq k' k then (k', v) :: rest else (k', v') :: setKey rest k v

/-- Python `timezone in holidays` on the outer dict. -/
def containsTZ (h : Holidays) (tz : List Char) : Bool :=
  h.any (fun p => p.1 = tz)

/-- Update the submap stored under key `tz` (which must be present). -/
def updateTZ (h : Holidays) (tz : List Char) (f : HolidaySub → HolidaySub) :
    Holidays :=
  match h with
  | [] => []
  | (t, s) :: rest =>
      if t = tz then (t, f s) :: rest else (t, s) :: updateTZ rest tz f

/-- Body of the `load_holidays` loop for one record:
`if timezone not in holidays: holidays[timezone] = {}` followed by
`holidays[timezone][date] = holiday`. -/
def insertHoliday (h : Holidays) (tz : List Char) (k : PyKey)
    (label : List Char) : Holidays :=
  let h' := if containsTZ h tz then h else h ++ [(tz, [])]
  updateTZ h' tz (fun sub => setKey sub k label)

/-- `DateUtility.is_holiday`: `timezone in self.holidays and date in
self.holidays[timezone]`. -/
def is_holiday (holidays : Holidays) (date : PyKey) (timezone : List Char) :
    Bool :=
  match alistGet holidays timezone with
  | some sub => containsKey sub date
  | none => false

/-- `DateUtility.add_dt`: `from_date + datetime.timedelta(days =
number_of_days)`. -/
def add_dt (from_date : Int) (number_of_days : Int) : Int :=
  from_date + number_of_days * usPerDay

/-- `DateUtility.sub_dt`: `from_date - datetime.timedelta(days =
number_of_days)`. -/
def sub_dt (from_date : Int) (number_of_days : Int) : Int :=
  from_date - number_of_days * usPerDay

/-- `DateUtility.get_days`: `(to_date - from_date).days`.  A Python
`timedelta` is normalized so that its sub-day part is nonnegative, hence
`.days` is the floor of the duration in days: `Int.fdiv`. -/
def get_days (from_date : Int) (to_date : Int) : Int :=
  Int.fdiv (to_date - from_date) usPerDay

/-- `DateUtility.count_weekends`: day-by-day loop from `from_date` while
`current_date <= to_date`, counting days with `weekday() >= 5`. -/
def count_weekends (from_date : Int) (to_date : Int) : Nat :=
  if h : from_date ≤ to_date then
    (if 5 ≤ weekday from_date then 1 else 0) +
      count_weekends (from_date + usPerDay) to_date
  else 0
termination_by (to_date - from_date + usPerDay).toNat
decreasing_by simp only [usPerDay] at *; omega

/-- `DateUtility.get_days_exclude_we`: `(to_date - from_date).days -
self.count_weekends(from_date, to_date)`. -/
def get_days_exclude_we (from_date : Int) (to_date : Int) : Int :=
  get_days from_date to_date - (count_weekends from_date to_date : Int)

/-- `DateUtility.get_days_since_epoch`: `(from_date -
datetime.datetime.utcfromtimestamp(0)).days`; the epoch is instant 0. -/
def get_days_since_epoch (from_date : Int) : Int :=
  Int.fdiv (from_date - 0) usPerDay

/-- `DateUtility.get_business_days`: day-by-day loop while `current_date <=
to_date`, counting days with `weekday() < 5` that are not holidays; the
holiday lookup passes the hardcoded timezone string `"US/Eastern"` and the
loop's `datetime` value as the key. -/
def get_business_days (holidays : Holidays) (from_date : Int)
    (to_date : Int) : Nat :=
  if h : from_date ≤ to_date then
    (if weekday from_date < 5 ∧
        ¬ is_holiday holidays (PyKey.datetime from_date) "US/Eastern".data
      then 1 else 0) +
      get_business_days holidays (from_date + usPerDay) to_date
  else 0
termination_by (to_date - from_date + usPerDay).toNat
decreasing_by simp only [usPerDay] at *; omega

/-- Number of iterations of the day loops on the inclusive range
`[from_date, to_date]`: the count of `k ≥ 0` with
`from_date + k * usPerDay ≤ to_date`. -/
def numDays (from_date : Int) (to_date : Int) : Nat :=
  (Int.fdiv (to_date - from_date) usPerDay + 1).toNat

/-- The successive loop values `from_date + k * usPerDay`, `n` of them. -/
def dayListN : Nat → Int → List Int
  | 0, _ => []
  | n + 1, from_date => from_date :: dayListN n (from_date + usPerDay)

/-- The exact sequence of `current_date` values visited by the day loops. -/
def dayList (from_date : Int) (to_date : Int) : List Int :=
  dayListN (numDays from_date to_date) from_date

/-- Whitespace characters removed by Python `str.strip()` (ASCII subset). -/
def isPySpace (c : Char) : Bool :=
  c = ' ' || c = '\t' || c = '\n' || c = '\x0d' || c = '\x0b' || c = '\x0c'

/-- Python `line.strip()`. -/
def pyStrip (s : List Char) : List Char :=
  (((s.dropWhile isPySpace).reverse).dropWhile isPySpace).reverse

/-- Python `s.split(', ')`: split on each non-overlapping left-to-right
occurrence of the two-character separator.  `acc` holds the current field
reversed; initial call passes `[]`. -/
def splitCommaSpace : List Char → List Char → List (List Char)
  | ',' :: ' ' :: rest, acc => acc.reverse :: splitCommaSpace rest []
  | c :: rest, acc => splitCommaSpace rest (c :: acc)
  | [], acc => [acc.reverse]

/-- Numeric value of a digit character. -/
def digitVal (c : Char) : Nat := c.toNat - 48

/-- CPython `_strptime` regex fragment `1[0-2]` (month, tens form). -/
def altMonthTens : List Char → Option (Nat × List Char)
  | '1' :: c :: r => if '0' ≤ c ∧ c ≤ '2' then some (10 + digitVal c, r) else none
  | _ => none

/-- CPython `_strptime` regex fragment `0[1-9]` (month or day with a leading
zero). -/
def altZeroPadded : List Char → Option (Nat × List Char)
  | '0' :: c :: r => if '1' ≤ c ∧ c ≤ '9' then some (digitVal c, r) else none
  | _ => none

/-- CPython `_strptime` regex fragment `[1-9]` (single-digit month or day). -/
def altSingleDigit : List Char → Option (Nat × List Char)
  | c :: r => if '1' ≤ c ∧ c ≤ '9' then some (digitVal c, r) else none
  | [] => none

/-- CPython `_strptime` regex fragment `3[01]` (day, thirties form). -/
def altDayThirties : List Char → Option (Nat × List Char)
  | '3' :: c :: r => if c = '0' ∨ c = '1' then some (30 + digitVal c, r) else none
  | _ => none

/-- CPython `_strptime` regex fragment `[12]\d` (day 10-29). -/
def altDayTeens : List Char → Option (Nat × List Char)
  | c :: c' :: r =>
      if (c = '1' ∨ c = '2') ∧ c'.isDigit
        then some (10 * digitVal c + digitVal c', r) else none
  | _ => none

/-- Month alternatives of `%m` = `1[0-2]|0[1-9]|[1-9]`, in regex alternation
order. -/
def monthCands (s : List Char) : List (Nat × List Char) :=
  [altMonthTens s, altZeroPadded s, altSingleDigit s].filterMap id

/-- Day alternatives of `%d` = `3[01]|[12]\d|0[1-9]|[1-9]`, in regex
alternation order. -/
def dayCands (s : List Char) : List (Nat × List Char) :=
  [altDayThirties s, altDayTeens s, altZeroPadded s, altSingleDigit s].filterMap id

/-- Regex backtracking over `%m%d`: the first month alternative (in
alternation order) for which some day alternative matches the remainder,
paired with the first such day alternative.  This reproduces how
`re.match` selects among alternatives of the `%Y%m%d` pattern. -/
def pickMonthDay : List (Nat × List Char) → Option (Nat × Nat × List Char)
  | [] => none
  | (m, r) :: rest =>
      match dayCands r with
      | (d, r') :: _ => some (m, d, r')
      | [] => pickMonthDay rest

/-- Gregorian leap year (as CPython `datetime` uses). -/
def isLeap (y : Nat) : Bool := y % 4 = 0 ∧ (y % 100 ≠ 0 ∨ y % 400 = 0)

/-- Length of a month, used by CPython `datetime.date` validation. -/
def daysInMonth (y m : Nat) : Nat :=
  if m = 2 then (if isLeap y then 29 else 28)
  else if m = 4 ∨ m = 6 ∨ m = 9 ∨ m = 11 then 30
  else 31

/-- Day ordinal (relative to 1970-01-01) of the civil date `(y, m, d)`,
computed with floor divisions; this is `date(y, m, d).toordinal()` shifted
so that the Unix epoch is 0. -/
def daysFromCivil (y m d : Int) : Int :=
  let y' := if m ≤ 2 then y - 1 else y
  let era := Int.fdiv y' 400
  let yoe := y' - era * 400
  let mp := Int.emod (m + 9) 12
  let doy := Int.fdiv (153 * mp + 2) 5 + d - 1
  let doe := yoe * 365 + Int.fdiv yoe 4 - Int.fdiv yoe 100 + doy
  era * 146097 + doe - 719468

/-- CPython `datetime.datetime.strptime(s, "%Y%m%d").date()`:
the regex `\d\d\d\d` then `%m%d` alternations must match a prefix of `s`
(with backtracking), the whole string must be consumed ("unconverted data
remains" otherwise), and the resulting triple must be a valid
`datetime.date` (year ≥ 1, day within the month).  Note the month and day
patterns also accept single-digit and unpadded two-digit forms, so inputs
shorter than 8 characters can parse successfully. -/
def strptimeYmd (s : List Char) : Option (Nat × Nat × Nat) :=
  match s with
  | y1 :: y2 :: y3 :: y4 :: rest =>
      if y1.isDigit ∧ y2.isDigit ∧ y3.isDigit ∧ y4.isDigit then
        let y := 1000 * digitVal y1 + 100 * digitVal y2 +
                 10 * digitVal y3 + digitVal y4
        match pickMonthDay (monthCands rest) with
        | some (m, d, r') =>
            if r' = [] then
              if 1 ≤ y ∧ d ≤ daysInMonth y m then some (y, m, d) else none
            else none
        | none => none
      else none
  | _ => none

/-- Python exceptions surfaced by `DateUtility`. -/
inductive PyError where
  | valueError
  | unknownTimeZone (tz : List Char)
deriving DecidableEq, Repr

/-- One iteration of the `load_holidays` loop:
`timezone, date_str, holiday = line.strip().split(', ')` (a `ValueError`
unless exactly three fields) followed by
`datetime.datetime.strptime(date_str, "%Y%m%d").date()` (a `ValueError` on
parse failure), yielding the record to insert. -/
def parse_holiday_line (line : List Char) :
    Option (List Char × PyKey × List Char) :=
  match splitCommaSpace (pyStrip line) [] with
  | [tz, dstr, label] =>
      match strptimeYmd dstr with
      | some (y, m, d) =>
          some (tz, PyKey.date (daysFromCivil (y : Int) (m : Int) (d : Int)),
                label)
      | none => none
  | _ => none

/-- The `for line in lines` loop of `load_holidays`, threading the
`holidays` dict; the first malformed line raises (`Except.error`) and no
dict is returned. -/
def load_holidays_go : List (List Char) → Holidays →
    Except PyError Holidays
  | [], holidays => Except.ok holidays
  | line :: rest, holidays =>
      match parse_holiday_line line with
      | some (tz, k, label) =>
          load_holidays_go rest (insertHoliday holidays tz k label)
      | none => Except.error PyError.valueError

/-- `DateUtility.load_holidays` on the list of lines of the file:
`readlines()[1:]` drops the header, then each line is parsed and inserted;
any malformed line raises a `ValueError` out of the method. -/
def load_holidays (lines : List (List Char)) : Except PyError Holidays :=
  load_holidays_go (lines.drop 1) []

/-- A timezone of the platform timezone database, as used through `pytz`:
`offAtLocal t` is the UTC offset (in microseconds) that `localize` attaches
to the naive local time `t`, and `offAtInstant u` is the offset of this
zone at the UTC instant `u`, as applied by `astimezone`. -/
structure PyTZInfo where
  offAtLocal : Int → Int
  offAtInstant : Int → Int

/-- The timezone database: `pytz.timezone` raises `UnknownTimeZoneError`
exactly when the name is absent. -/
abbrev TZDatabase := List Char → Option PyTZInfo

/-- `DateUtility.convert_dt`: `pytz.timezone` on the source then the target
name (either lookup raising `UnknownTimeZoneError` when the name is
unknown), then `localize` interprets the naive datetime in the source zone
and `astimezone` re-expresses the instant in the target zone. -/
def convert_dt (db : TZDatabase) (from_date : Int) (from_date_TZ : List Char)
    (to_date_TZ : List Char) : Except PyError Int :=
  match db from_date_TZ with
  | none => Except.error (PyError.unknownTimeZone from_date_TZ)
  | some fromZone =>
      match db to_date_TZ with
      | none => Except.error (PyError.unknownTimeZone to_date_TZ)
      | some toZone =>
          let instant := from_date - fromZone.offAtLocal from_date
          Except.ok (instant + toZone.offAtInstant instant)

/-- Modelled from the spec: `businessDays(from, to, timezone)` as §4.2 of
the spec words it — iterate every calendar day of the inclusive range
`[from, to]`, count a day when its weekday is Monday-Friday and
`HolidayCalendar.isHoliday(day, timezone)` is false, with the timezone a
caller-supplied parameter and the lookup keyed by the calendar date of the
day.  This definition exists only to compare the spec claim against
`get_business_days`; the source has no timezone parameter. -/
def businessDays_spec (holidays : Holidays) (from_date : Int) (to_date : Int)
    (tz : List Char) : Nat :=
  ((dayList from_date to_date).filter (fun d =>
      decide (weekday d < 5 ∧
        ¬ is_holiday holidays (PyKey.date (Int.fdiv d usPerDay)) tz))).length

/-- Modelled from the spec: `daysBetween` as §4.2 of the spec words it —
`(to - from)` as a whole number of days "discarding any sub-day remainder
toward zero (truncation)".  `Int.div` is truncated division.  This
definition exists only to compare the spec claim against `get_days`. -/
def get_days_trunc (from_date : Int) (to_date : Int) : Int :=
  Int.tdiv (to_date - from_date) usPerDay

/-! Helper lemmas relating the day-by-day while loops to the explicit list
of visited days, and recording what kinds of keys `load_holidays` puts in
the calendar. -/

lemma usPerDay_pos : (0 : Int) < usPerDay := by norm_num [usPerDay]

lemma numDays_zero (a b : Int) (h : b < a) : numDays a b = 0 := by
  unfold numDays
  rw [Int.fdiv_eq_ediv _ (le_of_lt usPerDay_pos)]
  simp only [usPerDay] at *
  omega

lemma numDays_succ (a b : Int) (h : a ≤ b) :
    numDays a b = numDays (a + usPerDay) b + 1 := by
  unfold numDays
  rw [Int.fdiv_eq_ediv _ (le_of_lt usPerDay_pos),
    Int.fdiv_eq_ediv _ (le_of_lt usPerDay_pos)]
  simp only [usPerDay] at *
  omega

lemma dayList_nil (a b : Int) (h : b < a) : dayList a b = [] := by
  rw [dayList, numDays_zero a b h]
  rfl

lemma dayList_cons (a b : Int) (h : a ≤ b) :
    dayList a b = a :: dayList (a + usPerDay) b := by
  rw [dayList, numDays_succ a b h]
  rfl

lemma dayListN_length (n : Nat) (a : Int) : (dayListN n a).length = n := by
  induction n generalizing a with
  | zero => rfl
  | succ n ih => simp [dayListN, ih]

lemma filter_cons_length (p : Int → Bool) (x : Int) (xs : List Int) :
    ((x :: xs).filter p).length =
      (if p x = true then 1 else 0) + (xs.filter p).length := by
  rw [List.filter_cons]
  by_cases h : p x = true
  · rw [if_pos h, if_pos h]
    simp [Nat.add_comm]
  · rw [if_neg h, if_neg h]
    simp

lemma count_weekends_eq_dayList (a b : Int) :
    count_weekends a b =
      ((dayList a b).filter (fun d => decide (5 ≤ weekday d))).length := by
  by_cases h : a ≤ b
  · rw [count_weekends, dif_pos h, dayList_cons a b h, filter_cons_length,
      count_weekends_eq_dayList (a + usPerDay) b]
    simp only [decide_eq_true_eq]
  · rw [count_weekends, dif_neg h, dayList_nil a b (by omega)]
    rfl
termination_by (b - a + usPerDay).toNat
decreasing_by simp only [usPerDay] at *; omega

lemma get_business_days_eq_dayList (holidays : Holidays) (a b : Int) :
    get_business_days holidays a b =
      ((dayList a b).filter (fun d => decide (weekday d < 5 ∧
        ¬ is_holiday holidays (PyKey.datetime d) "US/Eastern".data))).length := by
  by_cases h : a ≤ b
  · rw [get_business_days, dif_pos h, dayList_cons a b h, filter_cons_length,
      get_business_days_eq_dayList holidays (a + usPerDay) b]
    simp only [decide_eq_true_eq]
  · rw [get_business_days, dif_neg h, dayList_nil a b (by omega)]
    rfl
termination_by (b - a + usPerDay).toNat
decreasing_by simp only [usPerDay] at *; omega

/-- Every key of every inner dict of the calendar is a `date` key. -/
def allDateKeys (h : Holidays) : Prop :=
  ∀ p ∈ h, ∀ q ∈ p.2, ∃ o, q.1 = PyKey.date o

lemma setKey_dateKeys (sub : HolidaySub) (k : PyKey) (v : List Char)
    (hs : ∀ q ∈ sub, ∃ o, q.1 = PyKey.date o) (hk : ∃ o, k = PyKey.date o) :
    ∀ q ∈ setKey sub k v, ∃ o, q.1 = PyKey.date o := by
  induction sub with
  | nil =>
      intro q hq
      simp only [setKey, List.mem_singleton] at hq
      subst hq
      exact hk
  | cons p rest ih =>
      intro q hq
      unfold setKey at hq
      by_cases he : pyKeyEq p.1 k
      · rw [if_pos he] at hq
        rcases List.mem_cons.mp hq with hq | hq
        · subst hq
          exact hs p (List.mem_cons_self _ _)
        · exact hs q (List.mem_cons_of_mem _ hq)
      · rw [if_neg he] at hq
        rcases List.mem_cons.mp hq with hq | hq
        · subst hq
          exact hs p (List.mem_cons_self _ _)
        · exact ih (fun r hr => hs r (List.mem_cons_of_mem _ hr)) q hq

lemma updateTZ_dateKeys (h : Holidays) (tz : List Char)
    (f : HolidaySub → HolidaySub) (hh : allDateKeys h)
    (hf : ∀ sub, (∀ q ∈ sub, ∃ o, q.1 = PyKey.date o) →
      ∀ q ∈ f sub, ∃ o, q.1 = PyKey.date o) :
    allDateKeys (updateTZ h tz f) := by
  induction h with
  | nil => intro p hp; simp [updateTZ] at hp
  | cons e rest ih =>
      intro p hp
      unfold updateTZ at hp
      by_cases he : e.1 = tz
      · rw [if_pos he] at hp
        rcases List.mem_cons.mp hp with hp | hp
        · subst hp
          exact hf e.2 (hh e (List.mem_cons_self _ _))
        · exact hh p (List.mem_cons_of_mem _ hp)
      · rw [if_neg he] at hp
        rcases List.mem_cons.mp hp with hp | hp
        · subst hp
          exact hh e (List.mem_cons_self _ _)
        · exact ih (fun r hr => hh r (List.mem_cons_of_mem _ hr)) p hp

lemma insertHoliday_dateKeys (h : Holidays) (tz : List Char) (k : PyKey)
    (label : List Char) (hh : allDateKeys h) (hk : ∃ o, k = PyKey.date o) :
    allDateKeys (insertHoliday h tz k label) := by
  unfold insertHoliday
  apply updateTZ_dateKeys
  · by_cases hc : containsTZ h tz
    · rw [if_pos hc]; exact hh
    · rw [if_neg hc]
      intro p hp
      rcases List.mem_append.mp hp with hp | hp
      · exact hh p hp
      · simp only [List.mem_singleton] at hp
        subst hp
        intro q hq
        simp at hq
  · intro sub hsub
    exact setKey_dateKeys sub k label hsub hk

lemma parse_holiday_line_date (l tz : List Char) (k : PyKey)
    (label : List Char) (h : parse_holiday_line l = some (tz, k, label)) :
    ∃ o, k = PyKey.date o := by
  unfold parse_holiday_line at h
  split at h
  · split at h
    · simp only [Option.some.injEq, Prod.mk.injEq] at h
      exact ⟨_, h.2.1.symm⟩
    · exact absurd h (by simp)
  · exact absurd h (by simp)

lemma load_holidays_go_dateKeys (lines : List (List Char)) :
    ∀ h0 : Holidays, allDateKeys h0 →
    ∀ h : Holidays, load_holidays_go lines h0 = Except.ok h → allDateKeys h := by
  induction lines with
  | nil =>
      intro h0 hall h heq
      simp only [load_holidays_go, Except.ok.injEq] at heq
      subst heq
      exact hall
  | cons line rest ih =>
      intro h0 hall h heq
      unfold load_holidays_go at heq
      cases hp : parse_holiday_line line with
      | none => rw [hp] at heq; exact absurd heq (by simp)
      | some r =>
          rw [hp] at heq
          exact ih (insertHoliday h0 r.1 r.2.1 r.2.2)
            (insertHoliday_dateKeys h0 r.1 r.2.1 r.2.2 hall
              (parse_holiday_line_date line r.1 r.2.1 r.2.2 (by rw [hp])))
            h heq

lemma alistGet_mem {β : Type} (l : List (List Char × β)) (k : List Char)
    (v : β) (h : alistGet l k = some v) : ∃ p ∈ l, p.2 = v := by
  induction l with
  | nil => simp [alistGet] at h
  | cons e rest ih =>
      unfold alistGet at h
      by_cases he : e.1 = k
      · rw [if_pos he] at h
        exact ⟨e, List.mem_cons_self _ _, by injection h⟩
      · rw [if_neg he] at h
        rcases ih h with ⟨p, hp, hv⟩
        exact ⟨p, List.mem_cons_of_mem _ hp, hv⟩

lemma is_holiday_datetime_false (holidays : Holidays) (u : Int)
    (tz : List Char) (hall : allDateKeys holidays) :
    is_holiday holidays (PyKey.datetime u) tz = false := by
  unfold is_holiday
  cases hg : alistGet holidays tz with
  | none => rfl
  | some sub =>
      rcases alistGet_mem holidays tz sub hg with ⟨p, hp, hv⟩
      unfold containsKey
      rw [List.any_eq_false]
      intro q hq
      rcases hall p hp q (hv ▸ hq) with ⟨o, ho⟩
      rw [ho]
      simp [pyKeyEq]

lemma parse_holiday_line_none_iff (l : List Char) :
    parse_holiday_line l = none ↔
      (splitCommaSpace (pyStrip l) []).length ≠ 3 ∨
      ∃ tz ds label, splitCommaSpace (pyStrip l) [] = [tz, ds, label] ∧
        strptimeYmd ds = none := by
  unfold parse_holiday_line
  generalize splitCommaSpace (pyStrip l) [] = fs
  rcases fs with _ | ⟨a, _ | ⟨b, _ | ⟨c, _ | ⟨d, rest⟩⟩⟩⟩
  · simp
  · simp
  · simp
  · cases hp : strptimeYmd b with
    | none =>
        simp only [hp]
        constructor
        · intro _
          exact Or.inr ⟨a, b, c, rfl, hp⟩
        · intro _
          trivial
    | some v =>
        rcases v with ⟨y, m, d⟩
        simp [hp]
  · simp

lemma load_holidays_go_error_iff (ls : List (List Char)) :
    ∀ h0 : Holidays, (∃ e, load_holidays_go ls h0 = Except.error e) ↔
      ∃ l ∈ ls, parse_holiday_line l = none := by
  induction ls with
  | nil => intro h0; simp [load_holidays_go]
  | cons line rest ih =>
      intro h0
      unfold load_holidays_go
      cases hp : parse_holiday_line line with
      | none =>
          constructor
          · intro _
            exact ⟨line, List.mem_cons_self _ _, hp⟩
          · intro _
            exact ⟨PyError.valueError, rfl⟩
      | some r =>
          rw [ih (insertHoliday h0 r.1 r.2.1 r.2.2)]
          constructor
          · rintro ⟨l, hl, hn⟩
            exact ⟨l, List.mem_cons_of_mem _ hl, hn⟩
          · rintro ⟨l, hl, hn⟩
            rcases List.mem_cons.mp hl with hl | hl
            · subst hl
              rw [hp] at hn
              exact absurd hn (by simp)
            · exact ⟨l, hl, hn⟩

lemma load_holidays_error_iff (lines : List (List Char)) :
    (∃ e, load_holidays lines = Except.error e) ↔
      ∃ l ∈ lines.drop 1, parse_holiday_line l = none :=
  load_holidays_go_error_iff (lines.drop 1) []


/-! Claim theorems. -/

/-- C1 counterexample: the claim says `businessDays(from, to, tz)` uses the
caller-supplied timezone `tz` for holiday lookups.  The code has no such
parameter: with a calendar holding a New-Year holiday for `"UTC"` on Monday
2023-01-02 (day ordinal 19359) and `tz = "UTC"`, the spec-faithful count
over the one-day range excludes the holiday and yields 0, while
`get_business_days` looks up the hardcoded `"US/Eastern"` (with a
`datetime` key) and yields 1. -/
theorem business_days_caller_tz_cex :
    get_business_days [("UTC".data, [(PyKey.date 19359, "NewYear".data)])]
        1672617600000000 1672617600000000 ≠
      businessDays_spec [("UTC".data, [(PyKey.date 19359, "NewYear".data)])]
        1672617600000000 1672617600000000 "UTC".data := by
  rw [get_business_days_eq_dayList]
  decide

/-- C1 (amended): `get_business_days(from, to)` takes no timezone
parameter; it counts exactly the calendar days in the inclusive range
`[from, to]` whose weekday is Monday-Friday and for which the holiday
lookup — made with the hardcoded timezone `"US/Eastern"` and the iterated
`datetime` value as key — is false. -/
theorem business_days_amended (holidays : Holidays) (a b : Int) :
    get_business_days holidays a b =
      ((dayList a b).filter (fun d => decide (weekday d < 5 ∧
        ¬ is_holiday holidays (PyKey.datetime d) "US/Eastern".data))).length :=
  get_business_days_eq_dayList holidays a b

/-- C2 counterexample: the claim says `get_days` truncates the sub-day
remainder toward zero.  For `from` at noon and `to` at midnight of the same
day (difference of minus half a day), Python `timedelta.days` is the floor
-1, while truncation toward zero would give 0. -/
theorem get_days_truncation_cex :
    get_days 43200000000 0 = -1 ∧ get_days_trunc 43200000000 0 = 0 ∧
      get_days 43200000000 0 ≠ get_days_trunc 43200000000 0 := by
  refine ⟨by decide, by decide, by decide⟩

/-- C2 (amended): `get_days(from, to)` is `(to - from)` in whole days with
the sub-day remainder discarded toward negative infinity (floor semantics
of Python `timedelta.days`): it is the unique integer `q` with
`usPerDay * q ≤ to - from < usPerDay * (q + 1)`; the result is negative
exactly when `to` precedes `from`. -/
theorem get_days_floor_characterization (a b : Int) :
    usPerDay * get_days a b ≤ b - a ∧
      b - a < usPerDay * (get_days a b + 1) ∧
      (get_days a b < 0 ↔ b < a) := by
  unfold get_days
  rw [Int.fdiv_eq_ediv _ (le_of_lt usPerDay_pos)]
  simp only [usPerDay]
  omega

/-- C2 witness: the floor characterization at a concrete half-day range. -/
theorem get_days_floor_characterization_witness :
    usPerDay * get_days 0 43200000000 ≤ 43200000000 - 0 ∧
      43200000000 - 0 < usPerDay * (get_days 0 43200000000 + 1) ∧
      (get_days 0 43200000000 < 0 ↔ (43200000000 : Int) < 0) :=
  get_days_floor_characterization 0 43200000000

/-- C3 counterexample: antisymmetry of `get_days` fails when the two
datetimes differ by half a day: `get_days(midnight, noon) = 0` but
`-get_days(noon, midnight) = 1`. -/
theorem get_days_antisymmetry_cex :
    get_days 0 43200000000 ≠ - get_days 43200000000 0 := by
  decide

/-- C3 (amended): `get_days(a, b) = -get_days(b, a)` holds whenever the
difference between `a` and `b` is a whole number of days (in particular
whenever the two datetimes have the same time of day); the floor semantics
of `timedelta.days` breaks antisymmetry on sub-day remainders. -/
theorem get_days_antisymmetry_whole_days (a b : Int)
    (h : Int.emod (b - a) usPerDay = 0) :
    get_days a b = - get_days b a := by
  have h' : (b - a) % (86400000000 : Int) = 0 := by
    simpa only [usPerDay] using h
  unfold get_days
  rw [Int.fdiv_eq_ediv _ (le_of_lt usPerDay_pos),
    Int.fdiv_eq_ediv _ (le_of_lt usPerDay_pos)]
  simp only [usPerDay]
  omega

/-- C3 witness: antisymmetry at two datetimes exactly one day apart. -/
theorem get_days_antisymmetry_whole_days_witness :
    Int.emod (86400000000 - 0) usPerDay = 0 ∧
      get_days 0 86400000000 = - get_days 86400000000 0 :=
  ⟨by decide, get_days_antisymmetry_whole_days 0 86400000000 (by decide)⟩

/-- C4: adding `n` days and then subtracting `n` days returns the original
datetime exactly, for every integer `n` including zero and negatives. -/
theorem add_sub_roundtrip (d n : Int) : sub_dt (add_dt d n) n = d := by
  simp only [add_dt, sub_dt, usPerDay]
  omega

/-- C5: on a reversed range (`from > to`) the `count_weekends` loop guard
fails at once and the result is 0. -/
theorem count_weekends_reversed_range (a b : Int) (h : b < a) :
    count_weekends a b = 0 := by
  rw [count_weekends, dif_neg (by omega)]

/-- C5 witness: a concrete reversed one-day range counts zero weekends. -/
theorem count_weekends_reversed_range_witness :
    (0 : Int) < 86400000000 ∧ count_weekends 86400000000 0 = 0 :=
  ⟨by decide, count_weekends_reversed_range 86400000000 0 (by decide)⟩

/-- C6: `is_holiday(date, timezone)` is true exactly when the timezone is a
key of the calendar and some key of that timezone's submapping is
Python-equal to the queried date; in particular a timezone absent from the
calendar yields false rather than an error. -/
theorem is_holiday_membership_iff (holidays : Holidays) (k : PyKey)
    (tz : List Char) :
    is_holiday holidays k tz = true ↔
      ∃ sub, alistGet holidays tz = some sub ∧
        ∃ p ∈ sub, pyKeyEq k p.1 = true := by
  unfold is_holiday
  cases h : alistGet holidays tz with
  | none => simp
  | some sub => simp [containsKey, List.any_eq_true]

/-- C6 witness: the membership characterization at a concrete calendar. -/
theorem is_holiday_membership_iff_witness :
    is_holiday [("US/Eastern".data, [(PyKey.date 19351, "Christmas".data)])]
        (PyKey.date 19351) "US/Eastern".data = true ↔
      ∃ sub, alistGet
          [("US/Eastern".data, [(PyKey.date 19351, "Christmas".data)])]
          "US/Eastern".data = some sub ∧
        ∃ p ∈ sub, pyKeyEq (PyKey.date 19351) p.1 = true :=
  is_holiday_membership_iff _ _ _

/-- C7 counterexample: the claim says an unrecognized timezone passed to
any holiday lookup raises an InvalidTimezoneError.  `is_holiday` has no
error path at all: with a calendar that only knows `"UTC"`, a lookup for
the unrecognized timezone `"Mars/Base"` returns the plain value `false`
instead of raising. -/
theorem holiday_lookup_unknown_tz_no_error_cex :
    is_holiday [("UTC".data, [(PyKey.date 0, "NewYear".data)])]
      (PyKey.date 0) "Mars/Base".data = false := by
  decide

/-- C7 (amended): an unrecognized timezone passed to `convert_dt` yields a
distinguishable `UnknownTimeZoneError` that propagates to the caller (no
retry path exists), while a holiday lookup with a timezone absent from the
calendar returns `false` rather than an error. -/
theorem invalid_timezone_amended :
    (∀ (db : TZDatabase) (t : Int) (tz1 tz2 : List Char),
        db tz1 = none ∨ db tz2 = none →
        ∃ s, convert_dt db t tz1 tz2 =
          Except.error (PyError.unknownTimeZone s)) ∧
    (∀ (holidays : Holidays) (k : PyKey) (tz : List Char),
        alistGet holidays tz = none → is_holiday holidays k tz = false) := by
  constructor
  · intro db t tz1 tz2 h
    rcases h with h | h
    · exact ⟨tz1, by simp [convert_dt, h]⟩
    · cases h1 : db tz1 with
      | none => exact ⟨tz1, by simp [convert_dt, h1]⟩
      | some z1 => exact ⟨tz2, by simp [convert_dt, h1, h]⟩
  · intro holidays k tz h
    simp [is_holiday, h]

/-- C7 witness: the amended statement at an empty timezone database and an
empty calendar. -/
theorem invalid_timezone_amended_witness :
    (∃ s, convert_dt (fun _ => none) 0 "Bad/Zone".data "UTC".data =
        Except.error (PyError.unknownTimeZone s)) ∧
      is_holiday [] (PyKey.date 0) "No/Where".data = false :=
  ⟨invalid_timezone_amended.1 (fun _ => none) 0 "Bad/Zone".data "UTC".data
      (Or.inl rfl),
    invalid_timezone_amended.2 [] (PyKey.date 0) "No/Where".data rfl⟩

/-- C8 counterexample: the claim says a date field that is not an 8-digit
YYYYMMDD string makes `load_holidays` fail.  The 7-character field
`"2022125"` is accepted by `strptime("%Y%m%d")` (month `12`, day `5`, day
ordinal 19331), so the load succeeds. -/
theorem load_holidays_seven_digit_date_cex :
    load_holidays ["timezone, date, holiday".data,
        "US/Eastern, 2022125, Christmas".data] =
      Except.ok [("US/Eastern".data,
        [(PyKey.date 19331, "Christmas".data)])] := by
  rfl

/-- C8 (amended): `load_holidays` fails (with the Python `ValueError` that
plays the role of the spec's ParseError) exactly when some non-header line
either does not split into exactly three comma-space-separated fields or
has a date field rejected by `strptime` with format `%Y%m%d` — a format
that requires a 4-digit year but also accepts 1- and 2-digit months and
days, so some 6- and 7-digit date strings load successfully.  On failure no
calendar is produced at all. -/
theorem load_holidays_malformed_line_fails (lines : List (List Char)) :
    (∃ e, load_holidays lines = Except.error e) ↔
      ∃ l ∈ lines.drop 1,
        (splitCommaSpace (pyStrip l) []).length ≠ 3 ∨
        ∃ tz ds label, splitCommaSpace (pyStrip l) [] = [tz, ds, label] ∧
          strptimeYmd ds = none := by
  rw [load_holidays_error_iff]
  constructor
  · rintro ⟨l, hl, hnone⟩
    exact ⟨l, hl, (parse_holiday_line_none_iff l).mp hnone⟩
  · rintro ⟨l, hl, hbad⟩
    exact ⟨l, hl, (parse_holiday_line_none_iff l).mpr hbad⟩

/-- C8 witness: the failure characterization at a concrete file whose
second line has only two fields. -/
theorem load_holidays_malformed_line_fails_witness :
    (∃ e, load_holidays ["timezone, date, holiday".data,
        "US/Eastern, 20221225".data] = Except.error e) ↔
      ∃ l ∈ ["timezone, date, holiday".data,
          "US/Eastern, 20221225".data].drop 1,
        (splitCommaSpace (pyStrip l) []).length ≠ 3 ∨
        ∃ tz ds label, splitCommaSpace (pyStrip l) [] = [tz, ds, label] ∧
          strptimeYmd ds = none :=
  load_holidays_malformed_line_fails _

/-- C9: the day-granularity loops are total and bounded by the size of the
input range: both counts are at most the number of calendar days in the
inclusive range (and the Lean functions are total by construction, also on
reversed ranges where the day count is 0). -/
theorem day_loops_bounded_by_range (holidays : Holidays) (a b : Int) :
    count_weekends a b ≤ numDays a b ∧
      get_business_days holidays a b ≤ numDays a b := by
  constructor
  · rw [count_weekends_eq_dayList]
    calc ((dayList a b).filter _).length ≤ (dayList a b).length :=
          List.length_filter_le _ _
      _ = numDays a b := by rw [dayList, dayListN_length]
  · rw [get_business_days_eq_dayList]
    calc ((dayList a b).filter _).length ≤ (dayList a b).length :=
          List.length_filter_le _ _
      _ = numDays a b := by rw [dayList, dayListN_length]

/-- C10: any calendar produced by `load_holidays` is keyed by `date`
values, while `get_business_days` queries with `datetime` values, which
never compare equal to `date` keys in Python; hence no holiday is ever
excluded and the result is the plain count of Monday-Friday days in the
inclusive range. -/
theorem business_days_ignore_loaded_holidays (lines : List (List Char))
    (holidays : Holidays) (a b : Int)
    (h : load_holidays lines = Except.ok holidays) :
    get_business_days holidays a b =
      ((dayList a b).filter (fun d => decide (weekday d < 5))).length := by
  have hall : allDateKeys holidays :=
    load_holidays_go_dateKeys (lines.drop 1) [] (by intro p hp; simp at hp)
      holidays h
  rw [get_business_days_eq_dayList]
  congr 1
  apply List.filter_congr
  intro d _
  rw [is_holiday_datetime_false holidays d "US/Eastern".data hall]
  simp

/-- C10 witness: a loaded calendar with a Christmas holiday inside the
demo range 2022-12-22 .. 2023-01-02; the business-day count still equals
the plain Monday-Friday count. -/
theorem business_days_ignore_loaded_holidays_witness :
    load_holidays ["timezone, date, holiday".data,
        "US/Eastern, 20221225, Christmas".data] =
      Except.ok [("US/Eastern".data,
        [(PyKey.date 19351, "Christmas".data)])] ∧
    get_business_days [("US/Eastern".data,
        [(PyKey.date 19351, "Christmas".data)])]
        1671667200000000 1672617600000000 =
      ((dayList 1671667200000000 1672617600000000).filter
        (fun d => decide (weekday d < 5))).length :=
  ⟨by rfl,
    business_days_ignore_loaded_holidays
      ["timezone, date, holiday".data,
        "US/Eastern, 20221225, Christmas".data]
      [("US/Eastern".data, [(PyKey.date 19351, "Christmas".data)])]
      1671667200000000 1672617600000000 (by rfl)⟩
